import Mathlib

/-!
Verification of the CTC training pipeline in `stt_models` (src/main.py and
src/tpu_train.py) against its natural-language specification.

The development shallowly embeds the parts of the program the claims are
about: the loss validity gate `check_loss`, the checkpoint writer
`save_checkpoint` (over an explicit association-list filesystem), the batch
collators `collate_fn` and `data_processing`, the training and evaluation
loops, the learning-rate wiring, and the best-checkpoint tracking of
`train_eval_fn`.  Python floats are modelled by `FVal` (an explicit
NaN / +inf / -inf / finite-rational datatype with IEEE comparison
semantics); tensors relevant to the gate are lists of `FVal`.
-/

namespace SttModels

/-- Model of an IEEE floating point value as far as the gate logic needs:
`nan`, the two infinities, and finite values represented as rationals. -/
inductive FVal
  | nan
  | inf
  | neginf
  | fin (q : ℚ)
deriving DecidableEq

/-- IEEE equality test (`==` in Python): `nan` compares unequal to
everything, including itself. -/
def feq : FVal → FVal → Bool
  | FVal.inf, FVal.inf => true
  | FVal.neginf, FVal.neginf => true
  | FVal.fin a, FVal.fin b => decide (a = b)
  | _, _ => false

/-- IEEE strict less-than (`<` in Python): any comparison with `nan` is
false; `-inf` is below everything else and `+inf` above everything else. -/
def flt : FVal → FVal → Bool
  | FVal.nan, _ => false
  | _, FVal.nan => false
  | FVal.neginf, FVal.neginf => false
  | FVal.neginf, _ => true
  | _, FVal.neginf => false
  | FVal.inf, _ => false
  | FVal.fin _, FVal.inf => true
  | FVal.fin a, FVal.fin b => decide (a < b)

/-- `torch.isnan` on one element. -/
def isnanb : FVal → Bool
  | FVal.nan => true
  | _ => false

/-- The rational content of a finite float (junk value `0` elsewhere; it is
only used on values the gate has certified finite). -/
def fvalToRat : FVal → ℚ
  | FVal.fin q => q
  | _ => 0

/-- `check_loss` (src/main.py lines 27-43).  `loss` is the loss tensor as a
list of elements (the CTC criterion used by the loops reduces to a 0-dim
tensor, i.e. a one-element list) and `loss_value` is the Python float
`loss.item()`.  Mirrors the source's `if` / `elif` chain:
inf check on the scalar, then `torch.isnan(loss).sum() > 0` on the tensor,
then the negativity check on the scalar. -/
def check_loss (loss : List FVal) (loss_value : FVal) : Bool × String :=
  if feq loss_value FVal.inf || feq loss_value FVal.neginf then
    (false, "WARNING: received an inf loss")
  else if 0 < loss.countP isnanb then
    (false, "WARNING: received a nan loss, setting loss value to 0")
  else if flt loss_value (FVal.fin 0) then
    (false, "WARNING: received a negative loss")
  else
    (true, "")

/-! ## Filesystem model for `save_checkpoint` -/

/-- A filesystem: an association list from paths to file contents. -/
abbrev FS := List (String × String)

/-- Content of the file at `p`, if present. -/
def fsRead (fs : FS) (p : String) : Option String := fs.lookup p

/-- `os.path.isfile`. -/
def fsIsFile (fs : FS) (p : String) : Bool := (fsRead fs p).isSome

/-- `os.remove` (also used to overwrite on write): drop every entry at
path `p`. -/
def fsRemove : FS → String → FS
  | [], _ => []
  | (k, v) :: fs, p => if k = p then fsRemove fs p else (k, v) :: fsRemove fs p

/-- Create or replace the file at `p` with content `c`. -/
def fsWrite (fs : FS) (p c : String) : FS := (p, c) :: fsRemove fs p

/-- `os.rename src dst`: no-op if `src` does not exist (the source guards
the call with `os.path.isfile` anyway). -/
def fsRename (fs : FS) (src dst : String) : FS :=
  match fsRead fs src with
  | some c => fsWrite (fsRemove fs src) dst c
  | none => fs

theorem fsRead_write_self (fs : FS) (p c : String) :
    fsRead (fsWrite fs p c) p = some c := by
  simp [fsRead, fsWrite, List.lookup]

theorem lookup_cons_ne {fs : List (String × String)} {k v q : String} (h : q ≠ k) :
    List.lookup q ((k, v) :: fs) = List.lookup q fs := by
  simp [List.lookup, beq_eq_false_iff_ne.mpr h]

theorem lookup_cons_self {fs : List (String × String)} {k v : String} :
    List.lookup k ((k, v) :: fs) = some v := by
  simp [List.lookup]

theorem fsRead_remove_ne (fs : FS) {p q : String} (h : q ≠ p) :
    fsRead (fsRemove fs p) q = fsRead fs q := by
  induction fs with
  | nil => rfl
  | cons e fs ih =>
      obtain ⟨k, v⟩ := e
      by_cases hk : k = p
      · rw [show fsRemove ((k, v) :: fs) p = fsRemove fs p by simp [fsRemove, hk]]
        rw [ih]
        exact (lookup_cons_ne (hk ▸ h)).symm
      · rw [show fsRemove ((k, v) :: fs) p = (k, v) :: fsRemove fs p by
          simp [fsRemove, hk]]
        by_cases hq : q = k
        · subst hq
          simp only [fsRead]
          rw [lookup_cons_self, lookup_cons_self]
        · simp only [fsRead]
          rw [lookup_cons_ne hq, lookup_cons_ne hq]
          exact ih

theorem fsRead_remove_self (fs : FS) (p : String) :
    fsRead (fsRemove fs p) p = none := by
  induction fs with
  | nil => rfl
  | cons e fs ih =>
      obtain ⟨k, v⟩ := e
      by_cases hk : k = p
      · rw [show fsRemove ((k, v) :: fs) p = fsRemove fs p by simp [fsRemove, hk]]
        exact ih
      · rw [show fsRemove ((k, v) :: fs) p = (k, v) :: fsRemove fs p by
          simp [fsRemove, hk]]
        simp only [fsRead]
        rw [lookup_cons_ne (fun hq => hk hq.symm)]
        exact ih

theorem fsRead_write_ne (fs : FS) {p q : String} (c : String) (h : q ≠ p) :
    fsRead (fsWrite fs p c) q = fsRead fs q := by
  simp only [fsWrite, fsRead]
  rw [lookup_cons_ne h]
  exact fsRead_remove_ne fs h

/-- A filename is never equal to its paired temporary file name. -/
theorem ne_temp_self (s : String) : s ≠ s ++ ".temp" := by
  intro h
  have hl := congrArg String.length h
  rw [String.length_append] at hl
  have h5 : (".temp" : String).length = 5 := rfl
  omega

/-- Outcome of the `torch.save(state_dict, tempfile)` call: either it
completes, or it raises partway through, leaving the temp file either
absent or holding incomplete bytes (`leftover`). -/
inductive SaveOutcome
  | ok
  | failMid (leftover : Option String)

/-- `save_checkpoint` (src/main.py lines 50-61), over the filesystem model.
Steps, exactly as in the source: build `tempfile = filename + ".temp"`;
remove a pre-existing temp file; `torch.save` to the temp file (outcome `w`
decides whether this call completes or raises — an exception propagates,
so the function stops there and reports the error); if the temp file
exists, rename it onto `filename`; if `is_best`, copy `filename` to
`"model_best.pth"`.  Returns the resulting filesystem and the propagated
exception, if any. -/
def save_checkpoint (fs : FS) (state_dict : String) (is_best : Bool)
    (filename : String) (w : SaveOutcome) : FS × Option String :=
  let tempfile := filename ++ ".temp"
  let fs1 := if fsIsFile fs tempfile then fsRemove fs tempfile else fs
  match w with
  | SaveOutcome.failMid leftover =>
      let fs2 := match leftover with
        | some c => fsWrite fs1 tempfile c
        | none => fs1
      (fs2, some "torch.save failed")
  | SaveOutcome.ok =>
      let fs2 := fsWrite fs1 tempfile state_dict
      let fs3 := if fsIsFile fs2 tempfile then fsRename fs2 tempfile filename else fs2
      let fs4 := if is_best then
          match fsRead fs3 filename with
          | some c => fsWrite fs3 "model_best.pth" c
          | none => fs3
        else fs3
      (fs4, none)

/-- Reading a path other than `tempfile` is unchanged by the stale-temp
removal step. -/
theorem fsRead_pre_clean (fs : FS) {tempfile q : String} (h : q ≠ tempfile) :
    fsRead (if fsIsFile fs tempfile then fsRemove fs tempfile else fs) q = fsRead fs q := by
  by_cases hf : fsIsFile fs tempfile
  · rw [if_pos hf]
    exact fsRead_remove_ne fs h
  · rw [if_neg hf]

/-- On the success path, the canonical file ends holding exactly the fresh
state, whatever the starting filesystem (shared helper for the checkpoint
claims). -/
theorem save_checkpoint_ok_read (fs : FS) (state_dict : String) (is_best : Bool)
    (filename : String) :
    fsRead (save_checkpoint fs state_dict is_best filename SaveOutcome.ok).1 filename
      = some state_dict ∧
    (save_checkpoint fs state_dict is_best filename SaveOutcome.ok).2 = none := by
  have hne : filename ≠ filename ++ ".temp" := ne_temp_self filename
  simp only [save_checkpoint]
  set tempfile := filename ++ ".temp" with htemp
  set fs1 := if fsIsFile fs tempfile then fsRemove fs tempfile else fs with hfs1
  have hexists : fsIsFile (fsWrite fs1 tempfile state_dict) tempfile = true := by
    simp [fsIsFile, fsRead_write_self]
  rw [if_pos hexists]
  have hren : fsRead (fsRename (fsWrite fs1 tempfile state_dict) tempfile filename) filename
      = some state_dict := by
    simp [fsRename, fsRead_write_self]
  constructor
  · by_cases hb : is_best
    · rw [if_pos hb, hren]
      by_cases hm : filename = "model_best.pth"
      · subst hm
        exact fsRead_write_self _ _ _
      · rw [fsRead_write_ne _ _ hm]
        exact hren
    · rw [if_neg hb]
      exact hren
  · trivial

/-- C1: `save_checkpoint` writes the full state to `path + ".temp"` and only
then renames it onto the canonical path.  If `torch.save` fails partway
(after the temp file is created but before the rename), the exception
propagates — the reported error is not swallowed — and the canonical path
is byte-for-byte unchanged: it still holds the prior checkpoint, or is
absent if none existed.  On the success path the canonical file holds the
fresh state and no error is reported. -/
theorem C1_checkpoint_atomic (fs : FS) (state_dict : String) (is_best : Bool)
    (filename : String) (leftover : Option String) :
    (save_checkpoint fs state_dict is_best filename (SaveOutcome.failMid leftover)).2
      = some "torch.save failed" ∧
    fsRead (save_checkpoint fs state_dict is_best filename (SaveOutcome.failMid leftover)).1
        filename
      = fsRead fs filename ∧
    fsRead (save_checkpoint fs state_dict is_best filename SaveOutcome.ok).1 filename
      = some state_dict ∧
    (save_checkpoint fs state_dict is_best filename SaveOutcome.ok).2 = none := by
  have hne : filename ≠ filename ++ ".temp" := ne_temp_self filename
  refine ⟨rfl, ?_, (save_checkpoint_ok_read fs state_dict is_best filename).1,
    (save_checkpoint_ok_read fs state_dict is_best filename).2⟩
  simp only [save_checkpoint]
  cases leftover with
  | none => exact fsRead_pre_clean fs hne
  | some c =>
      rw [fsRead_write_ne _ _ hne]
      exact fsRead_pre_clean fs hne

/-- C10: a stale temp file left at `path + ".temp"` by an earlier
interrupted save is removed before anything else, so it is never renamed
onto the canonical path: on success the canonical path holds the state
freshly written in this call (not the stale bytes), and if the fresh write
dies before creating the temp file, the canonical path is unchanged and
the stale temp file is gone rather than renamed. -/
theorem C10_stale_temp_never_promoted (fs : FS) (stale state_dict : String)
    (is_best : Bool) (filename : String) :
    fsRead (save_checkpoint (fsWrite fs (filename ++ ".temp") stale)
        state_dict is_best filename SaveOutcome.ok).1 filename
      = some state_dict ∧
    fsRead (save_checkpoint (fsWrite fs (filename ++ ".temp") stale)
        state_dict is_best filename (SaveOutcome.failMid none)).1 filename
      = fsRead fs filename ∧
    fsIsFile (save_checkpoint (fsWrite fs (filename ++ ".temp") stale)
        state_dict is_best filename (SaveOutcome.failMid none)).1 (filename ++ ".temp")
      = false := by
  have hne : filename ≠ filename ++ ".temp" := ne_temp_self filename
  refine ⟨(save_checkpoint_ok_read _ state_dict is_best filename).1, ?_, ?_⟩
  · simp only [save_checkpoint]
    rw [fsRead_pre_clean _ hne]
    exact fsRead_write_ne _ _ hne
  · simp only [save_checkpoint]
    have hf : fsIsFile (fsWrite fs (filename ++ ".temp") stale) (filename ++ ".temp") = true := by
      simp [fsIsFile, fsRead_write_self]
    rw [if_pos hf]
    simp only [fsIsFile, fsWrite]
    rw [show fsRemove ((filename ++ ".temp", stale) :: fsRemove fs (filename ++ ".temp"))
          (filename ++ ".temp")
        = fsRemove (fsRemove fs (filename ++ ".temp")) (filename ++ ".temp") by
      simp [fsRemove]]
    rw [fsRead_remove_self]
    rfl

/-! ## The loss validity gate (C2) and the training iteration (C3) -/

/-- C2: for every loss tensor and its scalar value `v` (the criterion in
both loops reduces to a 0-dim tensor, so the tensor `torch.isnan` inspects
is the one-element list `[v]` and `loss.item()` is `v`): `check_loss`
classifies `v = ±inf` as invalid with the non-finite message, a tensor
containing NaN as invalid with the NaN message, a finite `v < 0` as invalid
with the negative message, and a finite non-negative `v` (whose tensor is
then NaN-free) as valid. -/
theorem C2_gate_classification (v : FVal) :
    ((v = FVal.inf ∨ v = FVal.neginf) →
      check_loss [v] v = (false, "WARNING: received an inf loss")) ∧
    (v = FVal.nan →
      check_loss [v] v = (false, "WARNING: received a nan loss, setting loss value to 0")) ∧
    (∀ q : ℚ, v = FVal.fin q → q < 0 →
      check_loss [v] v = (false, "WARNING: received a negative loss")) ∧
    (∀ q : ℚ, v = FVal.fin q → 0 ≤ q →
      check_loss [v] v = (true, "")) := by
  refine ⟨?_, ?_, ?_, ?_⟩
  · rintro (rfl | rfl) <;> rfl
  · rintro rfl
    rfl
  · rintro q rfl hq
    simp [check_loss, feq, flt, isnanb, List.countP, List.countP.go, hq]
  · rintro q rfl hq
    simp [check_loss, feq, flt, isnanb, List.countP, List.countP.go, not_lt.mpr hq]

/-- Witness for C2: the four classifications at concrete inputs. -/
theorem C2_gate_classification_witness :
    check_loss [FVal.inf] FVal.inf = (false, "WARNING: received an inf loss") ∧
    check_loss [FVal.nan] FVal.nan
      = (false, "WARNING: received a nan loss, setting loss value to 0") ∧
    check_loss [FVal.fin (-1)] (FVal.fin (-1))
      = (false, "WARNING: received a negative loss") ∧
    check_loss [FVal.fin 2] (FVal.fin 2) = (true, "") :=
  ⟨(C2_gate_classification FVal.inf).1 (Or.inl rfl),
   (C2_gate_classification FVal.nan).2.1 rfl,
   (C2_gate_classification (FVal.fin (-1))).2.2.1 (-1) rfl (by norm_num),
   (C2_gate_classification (FVal.fin 2)).2.2.2 2 rfl (by norm_num)⟩

/-- Observable operations one training or evaluation iteration performs on
the model, optimizer and log. -/
inductive Op
  | zero_grad
  | forward
  | backward
  | clip_grad (threshold : ℚ)
  | opt_step
  | log_error (msg : String)
  | log_info (msg : String)
deriving DecidableEq

/-- The observable outcome of one training iteration. -/
structure StepResult where
  ops : List Op
  lossContribution : ℚ
  iterationDelta : ℕ
deriving DecidableEq

/-- One iteration of `train_loop_fn` (src/main.py lines 155-174) at a batch
whose (0-dim, mean-reduced) CTC loss has value `v`: zero the gradients, run
the forward pass, gate the loss; when the gate accepts, backward, clip the
global gradient norm at the fixed threshold 400, and take the optimizer
step, contributing `loss_value` to the running loss; when it rejects, log
the gate's error and an info line, contribute `0`, and skip the gradient
update.  Either way the iteration count advances by 1. -/
def trainIteration (v : FVal) : StepResult :=
  let checked := check_loss [v] v
  if checked.1 then
    { ops := [Op.zero_grad, Op.forward, Op.backward, Op.clip_grad 400, Op.opt_step],
      lossContribution := fvalToRat v,
      iterationDelta := 1 }
  else
    { ops := [Op.zero_grad, Op.forward, Op.log_error checked.2,
              Op.log_info "Skipping grad update"],
      lossContribution := 0,
      iterationDelta := 1 }

/-- Loss/iteration accumulator of the training loop. -/
structure TrainAcc where
  running_loss : ℚ
  iteration : ℕ
deriving DecidableEq

/-- Folding one iteration into the training accumulator
(`iteration += 1; running_loss += loss_value`). -/
def train_step (acc : TrainAcc) (v : FVal) : TrainAcc :=
  { running_loss := acc.running_loss + (trainIteration v).lossContribution,
    iteration := acc.iteration + (trainIteration v).iterationDelta }

/-- `train_loop_fn`'s accumulation over an epoch (src/main.py 152-174),
given the per-batch loss values. -/
def train_loop_fn (losses : List FVal) : TrainAcc :=
  losses.foldl train_step { running_loss := 0, iteration := 0 }

/-- `avg_loss = running_loss / iteration` (src/main.py line 180). -/
def train_avg_loss (losses : List FVal) : ℚ :=
  (train_loop_fn losses).running_loss / ((train_loop_fn losses).iteration : ℚ)

/-- If the gate accepts, the loss value was finite and non-negative. -/
theorem gate_valid_fin (v : FVal) (h : (check_loss [v] v).1 = true) :
    ∃ q : ℚ, v = FVal.fin q ∧ 0 ≤ q ∧ fvalToRat v = q := by
  cases v with
  | nan => simp [check_loss, feq, isnanb, List.countP, List.countP.go] at h
  | inf => simp [check_loss, feq] at h
  | neginf => simp [check_loss, feq] at h
  | fin q =>
      refine ⟨q, rfl, ?_, rfl⟩
      by_contra hq
      simp [check_loss, feq, flt, isnanb, List.countP, List.countP.go,
        not_le.mp hq] at h

/-- C3: in every training iteration, when the gate rejects the loss the
iteration performs no backward pass, no gradient clipping and no optimizer
step, logs the gate's error message (which identifies the cause), adds a
loss contribution of exactly zero, and still advances the iteration count
by 1; when the gate accepts, the iteration runs backward, then clips the
global gradient norm at the fixed threshold 400, then takes the optimizer
step, and adds the actual (finite, non-negative) loss value. -/
theorem C3_gate_drives_update (v : FVal) :
    ((check_loss [v] v).1 = false →
      Op.backward ∉ (trainIteration v).ops ∧
      (∀ t : ℚ, Op.clip_grad t ∉ (trainIteration v).ops) ∧
      Op.opt_step ∉ (trainIteration v).ops ∧
      Op.log_error (check_loss [v] v).2 ∈ (trainIteration v).ops ∧
      (trainIteration v).lossContribution = 0 ∧
      (trainIteration v).iterationDelta = 1) ∧
    ((check_loss [v] v).1 = true →
      (trainIteration v).ops
        = [Op.zero_grad, Op.forward, Op.backward, Op.clip_grad 400, Op.opt_step] ∧
      (∃ q : ℚ, v = FVal.fin q ∧ 0 ≤ q ∧
        (trainIteration v).lossContribution = q) ∧
      (trainIteration v).iterationDelta = 1) := by
  constructor
  · intro h
    simp [trainIteration, h]
  · intro h
    obtain ⟨q, hq, hq0, hqr⟩ := gate_valid_fin v h
    subst hq
    refine ⟨by simp [trainIteration, h], ⟨q, rfl, hq0, ?_⟩, by simp [trainIteration, h]⟩
    simp [trainIteration, h, fvalToRat]

/-- Witness for C3: a NaN loss is skipped with zero contribution; a valid
loss of 2 is applied with backward, clip at 400 and a step. -/
theorem C3_gate_drives_update_witness :
    ((check_loss [FVal.nan] FVal.nan).1 = false ∧
      (trainIteration FVal.nan).lossContribution = 0 ∧
      (trainIteration FVal.nan).iterationDelta = 1 ∧
      Op.backward ∉ (trainIteration FVal.nan).ops) ∧
    ((check_loss [FVal.fin 2] (FVal.fin 2)).1 = true ∧
      (trainIteration (FVal.fin 2)).ops
        = [Op.zero_grad, Op.forward, Op.backward, Op.clip_grad 400, Op.opt_step]) := by
  have h1 : (check_loss [FVal.nan] FVal.nan).1 = false := by decide
  have h2 : (check_loss [FVal.fin 2] (FVal.fin 2)).1 = true := by decide
  have c1 := (C3_gate_drives_update FVal.nan).1 h1
  have c2 := (C3_gate_drives_update (FVal.fin 2)).2 h2
  exact ⟨⟨h1, c1.2.2.2.2.1, c1.2.2.2.2.2, c1.1⟩, ⟨h2, c2.1⟩⟩

/-! ## The evaluation loop, WER aggregation and the data loader (C7-C9) -/

/-- What one evaluation batch yields: the scalar loss `loss.item()`, and
`compute_wer`'s pair of the batch's word-edit count and reference word
count. -/
structure BatchOutcome where
  loss : ℚ
  wers : ℕ
  n_words : ℕ
deriving DecidableEq

/-- Accumulator of `test_loop_fn` (src/main.py lines 192-195). -/
structure TestAcc where
  running_loss : ℚ
  total_words : ℕ
  cumulative_wer : ℕ
  iteration : ℕ
deriving DecidableEq

/-- One evaluation batch folded into the accumulator (src/main.py lines
199-207): `iteration += 1`, `running_loss += loss.item()`,
`cumulative_wer += wers`, `total_words += n_words`. -/
def test_step (acc : TestAcc) (b : BatchOutcome) : TestAcc :=
  { running_loss := acc.running_loss + b.loss,
    total_words := acc.total_words + b.n_words,
    cumulative_wer := acc.cumulative_wer + b.wers,
    iteration := acc.iteration + 1 }

/-- `test_loop_fn`'s accumulation over the validation loader's batches. -/
def test_loop_fn (batches : List BatchOutcome) : TestAcc :=
  batches.foldl test_step
    { running_loss := 0, total_words := 0, cumulative_wer := 0, iteration := 0 }

/-- `avg_loss = running_loss / iteration` (src/main.py line 209). -/
def test_avg_loss (batches : List BatchOutcome) : ℚ :=
  (test_loop_fn batches).running_loss / ((test_loop_fn batches).iteration : ℚ)

/-- `avg_wer = cumulative_wer / total_words` (src/main.py line 210). -/
def test_avg_wer (batches : List BatchOutcome) : ℚ :=
  ((test_loop_fn batches).cumulative_wer : ℚ) / ((test_loop_fn batches).total_words : ℚ)

/-- The operations the body of `test_loop_fn` performs per batch: under
`torch.no_grad()` and `model.eval()` it only runs the forward pass (and
decoding/scoring); the source contains no `backward`, no clipping and no
optimizer step. -/
def test_loop_ops (batches : List BatchOutcome) : List Op :=
  (batches.map (fun _ => [Op.forward])).flatten

/-- Averaging a list of per-batch WER ratios — what the spec says the code
must NOT do; defined only to be compared with `test_avg_wer`. -/
def mean_of_batch_ratios (batches : List BatchOutcome) : ℚ :=
  (batches.map (fun b => (b.wers : ℚ) / (b.n_words : ℚ))).sum / (batches.length : ℚ)

/-- `foldl` characterisation of the evaluation accumulator. -/
theorem test_loop_foldl (batches : List BatchOutcome) (acc : TestAcc) :
    batches.foldl test_step acc =
      { running_loss := acc.running_loss + (batches.map BatchOutcome.loss).sum,
        total_words := acc.total_words + (batches.map BatchOutcome.n_words).sum,
        cumulative_wer := acc.cumulative_wer + (batches.map BatchOutcome.wers).sum,
        iteration := acc.iteration + batches.length } := by
  induction batches generalizing acc with
  | nil => simp
  | cons b bs ih =>
      rw [List.foldl_cons, ih]
      simp [test_step, TestAcc.mk.injEq]
      refine ⟨by ring, by omega, by omega, by omega⟩

/-- The evaluation accumulator is exactly the batchwise sums. -/
theorem test_loop_fn_sums (batches : List BatchOutcome) :
    test_loop_fn batches =
      { running_loss := (batches.map BatchOutcome.loss).sum,
        total_words := (batches.map BatchOutcome.n_words).sum,
        cumulative_wer := (batches.map BatchOutcome.wers).sum,
        iteration := batches.length } := by
  rw [test_loop_fn, test_loop_foldl]
  simp

/-- C8: the reported validation WER is the sum over all validation batches
of word-edit counts divided by the sum over all batches of reference word
counts — numerators and denominators are summed before a single division —
and this is not the average of per-batch ratios: on the concrete pair of
batches (1 edit / 1 word) and (0 edits / 3 words) the code reports 1/4
while the mean of per-batch ratios would be 1/2. -/
theorem C8_wer_sum_before_divide (batches : List BatchOutcome) :
    test_avg_wer batches
      = ((batches.map BatchOutcome.wers).sum : ℚ)
        / ((batches.map BatchOutcome.n_words).sum : ℚ) ∧
    test_avg_wer [⟨0, 1, 1⟩, ⟨0, 0, 3⟩] = 1 / 4 ∧
    mean_of_batch_ratios [⟨0, 1, 1⟩, ⟨0, 0, 3⟩] = 1 / 2 ∧
    test_avg_wer [⟨0, 1, 1⟩, ⟨0, 0, 3⟩] ≠ mean_of_batch_ratios [⟨0, 1, 1⟩, ⟨0, 0, 3⟩] := by
  have h1 : test_avg_wer [⟨0, 1, 1⟩, ⟨0, 0, 3⟩] = 1 / 4 := by
    norm_num [test_avg_wer, test_loop_fn_sums]
  have h2 : mean_of_batch_ratios [⟨0, 1, 1⟩, ⟨0, 0, 3⟩] = 1 / 2 := by
    norm_num [mean_of_batch_ratios]
  refine ⟨?_, h1, h2, by rw [h1, h2]; norm_num⟩
  rw [test_avg_wer, test_loop_fn_sums]

/-- The loader's batch list: full batches of size `bs` taken in order, the
final incomplete batch dropped (`drop_last=True`, as all loaders in
src/main.py are built).  `fuel` bounds the recursion by the data length. -/
def chunksAux (bs : ℕ) : ℕ → List α → List (List α)
  | 0, _ => []
  | fuel + 1, data =>
      if 0 < bs ∧ bs ≤ data.length then
        data.take bs :: chunksAux bs fuel (data.drop bs)
      else []

/-- Batches a `DataLoader(dataset, batch_size=bs, drop_last=True)` yields. -/
def loader_batches (bs : ℕ) (data : List α) : List (List α) :=
  chunksAux bs data.length data

theorem chunksAux_flatten (bs : ℕ) (fuel : ℕ) (data : List α)
    (h : data.length ≤ fuel) :
    (chunksAux bs fuel data).flatten = data.take (bs * (data.length / bs)) := by
  induction fuel generalizing data with
  | zero =>
      have : data = [] := List.length_eq_zero.mp (Nat.le_zero.mp h)
      subst this
      simp [chunksAux]
  | succ fuel ih =>
      by_cases hc : 0 < bs ∧ bs ≤ data.length
      · obtain ⟨hbs, hble⟩ := hc
        rw [show chunksAux bs (fuel + 1) data
              = data.take bs :: chunksAux bs fuel (data.drop bs) from by
            simp only [chunksAux]
            rw [if_pos ⟨hbs, hble⟩]]
        rw [List.flatten_cons]
        have hlen : (data.drop bs).length = data.length - bs := List.length_drop bs data
        have hfuel : (data.drop bs).length ≤ fuel := by omega
        rw [ih (data.drop bs) hfuel, hlen]
        have hdiv : data.length / bs = (data.length - bs) / bs + 1 :=
          Nat.div_eq_sub_div hbs hble
        rw [hdiv, Nat.mul_add, Nat.mul_one, Nat.add_comm, List.take_add]
      · rw [show chunksAux bs (fuel + 1) data = [] from by
            simp only [chunksAux]
            rw [if_neg hc]]
        push_neg at hc
        rcases Nat.eq_zero_or_pos bs with hbs | hbs
        · simp [hbs]
        · rw [Nat.div_eq_of_lt (hc hbs)]
          simp

/-- The examples the loader presents are exactly the first
`bs * (N / bs)` examples of the dataset, in order. -/
theorem loader_batches_flatten (bs : ℕ) (data : List α) :
    (loader_batches bs data).flatten = data.take (bs * (data.length / bs)) :=
  chunksAux_flatten bs data.length data le_rfl

/-- Every operation the evaluation loop performs is a forward pass. -/
theorem test_loop_ops_forward (batches : List BatchOutcome) :
    ∀ op ∈ test_loop_ops batches, op = Op.forward := by
  intro op hop
  have h : ¬batches = [] ∧ op = Op.forward := by simpa [test_loop_ops] using hop
  exact h.2

/-- Both branches of the gate advance the iteration count by exactly 1. -/
theorem trainIteration_delta (v : FVal) : (trainIteration v).iterationDelta = 1 := by
  by_cases h : (check_loss [v] v).1 <;> simp [trainIteration, h]

/-- The training loop counts exactly one iteration per batch. -/
theorem train_loop_iteration (losses : List FVal) (acc : TrainAcc) :
    (losses.foldl train_step acc).iteration = acc.iteration + losses.length := by
  induction losses generalizing acc with
  | nil => simp
  | cons v vs ih =>
      rw [List.foldl_cons, ih]
      simp [train_step, trainIteration_delta]
      omega

/-- C7 (amended): the validation pass computes no gradients and performs no
parameter update — every operation it executes is a forward pass — and it
accumulates loss and WER over every batch the loader yields (all of them,
not only every `log_steps`); because the validation loader is built with
`drop_last=True`, those batches cover exactly the first
`batch_size * (N / batch_size)` examples of the validation set, in order,
rather than every example. -/
theorem C7_validation_pass {α : Type} (bs : ℕ) (data : List α)
    (f : List α → BatchOutcome) :
    (∀ op ∈ test_loop_ops ((loader_batches bs data).map f), op = Op.forward) ∧
    (Op.backward ∉ test_loop_ops ((loader_batches bs data).map f) ∧
      Op.opt_step ∉ test_loop_ops ((loader_batches bs data).map f) ∧
      (∀ t : ℚ, Op.clip_grad t ∉ test_loop_ops ((loader_batches bs data).map f))) ∧
    (test_loop_fn ((loader_batches bs data).map f)).iteration
      = (loader_batches bs data).length ∧
    (test_loop_fn ((loader_batches bs data).map f)).running_loss
      = (((loader_batches bs data).map f).map BatchOutcome.loss).sum ∧
    (test_loop_fn ((loader_batches bs data).map f)).cumulative_wer
      = (((loader_batches bs data).map f).map BatchOutcome.wers).sum ∧
    (test_loop_fn ((loader_batches bs data).map f)).total_words
      = (((loader_batches bs data).map f).map BatchOutcome.n_words).sum ∧
    (loader_batches bs data).flatten = data.take (bs * (data.length / bs)) := by
  have hops := test_loop_ops_forward ((loader_batches bs data).map f)
  refine ⟨hops, ⟨?_, ?_, ?_⟩, ?_, ?_, ?_, ?_, loader_batches_flatten bs data⟩
  · intro h
    exact absurd (hops _ h) (by simp)
  · intro h
    exact absurd (hops _ h) (by simp)
  · intro t h
    exact absurd (hops _ h) (by simp)
  · rw [test_loop_fn_sums]
    simp
  · rw [test_loop_fn_sums]
  · rw [test_loop_fn_sums]
  · rw [test_loop_fn_sums]

/-- Witness for C7's amended statement at a concrete loader. -/
theorem C7_validation_pass_witness :
    Op.backward ∉ test_loop_ops ((loader_batches 2 [0, 1, 2, 3, 4]).map
      (fun _ => ({ loss := 1, wers := 2, n_words := 3 } : BatchOutcome))) ∧
    (test_loop_fn ((loader_batches 2 [0, 1, 2, 3, 4]).map
      (fun _ => ({ loss := 1, wers := 2, n_words := 3 } : BatchOutcome)))).iteration
      = (loader_batches 2 [(0 : ℕ), 1, 2, 3, 4]).length := by
  have h := C7_validation_pass 2 [(0 : ℕ), 1, 2, 3, 4]
    (fun _ => ({ loss := 1, wers := 2, n_words := 3 } : BatchOutcome))
  exact ⟨h.2.1.1, h.2.2.1⟩

/-- Counterexample to C7 as stated: on a 5-example validation set with
batch size 2, the loader (built with `drop_last=True`) presents only the
first 4 examples, so the pass does not accumulate over every example of
the entire validation set (here each example contributes one reference
word, and only 4 of the 5 words are counted). -/
theorem C7_counterexample :
    (loader_batches 2 [0, 1, 2, 3, 4]).flatten = [0, 1, 2, 3] ∧
    (loader_batches 2 [0, 1, 2, 3, 4]).flatten ≠ [0, 1, 2, 3, 4] ∧
    (test_loop_fn ((loader_batches 2 [0, 1, 2, 3, 4]).map
      (fun b => ({ loss := 0, wers := 0, n_words := b.length } : BatchOutcome)))).total_words
      = 4 ∧
    [(0 : ℕ), 1, 2, 3, 4].length = 5 ∧ (4 : ℕ) ≠ 5 := by
  refine ⟨by decide, by decide, by decide, by decide, by decide⟩

/-- C9 (amended): the denominators of the finalizing divisions are nonzero
exactly when the loader actually yields data: the iteration count of a
training or evaluation pass is nonzero whenever the loader yields at least
one batch, and the word-count denominator is nonzero whenever the counted
batches contain at least one reference word.  (A loader built with
`drop_last=True` over a dataset shard smaller than the batch size yields no
batches at all, and then the iteration count at the division is zero — see
the counterexample.) -/
theorem C9_nonzero_denominators {α : Type} (bs : ℕ) (data : List α)
    (f : List α → BatchOutcome) (losses : List FVal) :
    (loader_batches bs data ≠ [] →
      (test_loop_fn ((loader_batches bs data).map f)).iteration ≠ 0) ∧
    (losses ≠ [] → (train_loop_fn losses).iteration ≠ 0) ∧
    (0 < (((loader_batches bs data).map f).map BatchOutcome.n_words).sum →
      (test_loop_fn ((loader_batches bs data).map f)).total_words ≠ 0) := by
  refine ⟨?_, ?_, ?_⟩
  · intro h
    rw [test_loop_fn_sums]
    simpa using h
  · intro h
    rw [train_loop_fn, train_loop_iteration]
    simpa using h
  · intro h
    rw [test_loop_fn_sums]
    exact Nat.pos_iff_ne_zero.mp h

/-- Witness for C9's amended statement: a loader with one full batch and a
one-batch training epoch have nonzero denominators. -/
theorem C9_nonzero_denominators_witness :
    (test_loop_fn ((loader_batches 1 [(0 : ℕ)]).map
      (fun _ => ({ loss := 0, wers := 0, n_words := 2 } : BatchOutcome)))).iteration ≠ 0 ∧
    (train_loop_fn [FVal.fin 1]).iteration ≠ 0 ∧
    (test_loop_fn ((loader_batches 1 [(0 : ℕ)]).map
      (fun _ => ({ loss := 0, wers := 0, n_words := 2 } : BatchOutcome)))).total_words ≠ 0 := by
  have h := C9_nonzero_denominators 1 [(0 : ℕ)]
    (fun _ => ({ loss := 0, wers := 0, n_words := 2 } : BatchOutcome)) [FVal.fin 1]
  exact ⟨h.1 (by decide), h.2.1 (by decide), h.2.2 (by decide)⟩

/-- Counterexample to C9 as stated: a loader built with `drop_last=True`
over a single-example shard and batch size 2 — a loader the pass can be
given — yields no batches, so at the moment the mean is finalized the
iteration count and the total word count are both zero. -/
theorem C9_counterexample :
    loader_batches 2 [(0 : ℕ)] = [] ∧
    (test_loop_fn ((loader_batches 2 [(0 : ℕ)]).map
      (fun _ => ({ loss := 0, wers := 0, n_words := 5 } : BatchOutcome)))).iteration = 0 ∧
    (test_loop_fn ((loader_batches 2 [(0 : ℕ)]).map
      (fun _ => ({ loss := 0, wers := 0, n_words := 5 } : BatchOutcome)))).total_words = 0 := by
  refine ⟨by decide, by decide, by decide⟩

/-! ## Learning-rate wiring (C4) -/

/-- The scaling computed at src/main.py line 250 and src/tpu_train.py line
141: `lr = args.learning_rate * xm.xrt_world_size()`. -/
def scaled_lr (base_lr : ℚ) (world_size : ℕ) : ℚ := base_lr * world_size

/-- `get_optimizer` (src/main.py lines 133-140) builds the optimizer with
`lr=args.learning_rate` for both the `sgd` and the `adam` choice. -/
def get_optimizer_lr (args_learning_rate : ℚ) : ℚ := args_learning_rate

/-- The learning rate the optimizer built by `_main_xla` (src/main.py lines
249-256) actually receives: line 250 computes the scaled `lr`, but line 256
calls `get_optimizer(args, model.parameters())`, which reads
`args.learning_rate` — the scaled `lr` is dead.  The `world_size` argument
is recorded to mirror the call context; it does not influence the result. -/
def main_xla_fed_lr (args_learning_rate : ℚ) (world_size : ℕ) : ℚ :=
  get_optimizer_lr args_learning_rate

/-- The learning rate the optimizer built by `train_deepspeech`
(src/tpu_train.py lines 140-147) receives: `optim.SGD(..., lr=lr)` with the
scaled `lr`. -/
def train_deepspeech_fed_lr (args_learning_rate : ℚ) (world_size : ℕ) : ℚ :=
  scaled_lr args_learning_rate world_size

/-- C4 (code bug in src/main.py): in the distributed path of `_main_xla`
with world size 8 and the default base rate 3e-4, the optimizer receives
the unscaled 3e-4, not 3e-4 * 8, even though line 250 computes the scaled
rate and its comment says "Scale learning rate to world size" — the scaled
value is never passed on.  `train_deepspeech` in src/tpu_train.py does feed
the scaled rate, as the claim says. -/
theorem C4_lr_scaling_dead_in_main_xla :
    main_xla_fed_lr (3 / 10000) 8 = 3 / 10000 ∧
    scaled_lr (3 / 10000) 8 = 24 / 10000 ∧
    main_xla_fed_lr (3 / 10000) 8 ≠ scaled_lr (3 / 10000) 8 ∧
    (∀ base : ℚ, ∀ world_size : ℕ, main_xla_fed_lr base world_size = base) ∧
    train_deepspeech_fed_lr (1 / 1000) 8 = 8 / 1000 := by
  refine ⟨rfl, by norm_num [scaled_lr], ?_, fun base world_size => rfl,
    by norm_num [train_deepspeech_fed_lr, scaled_lr]⟩
  norm_num [main_xla_fed_lr, get_optimizer_lr, scaled_lr]

/-! ## Best-checkpoint tracking (C5) -/

/-- Per-epoch `is_best` flags of `train_eval_fn`'s loop (src/main.py lines
347-375): with running best `best_loss`, each epoch computes
`is_best = loss < best_loss` and then `best_loss = min(loss, best_loss)`. -/
def is_best_flags (best_loss : ℚ) : List ℚ → List Bool
  | [] => []
  | loss :: rest => decide (loss < best_loss) :: is_best_flags (min loss best_loss) rest

/-- `train_eval_fn` initializes `best_loss = 1.0` (src/main.py line 347),
not positive infinity. -/
def train_eval_is_best (val_losses : List ℚ) : List Bool :=
  is_best_flags 1 val_losses

/-- The threshold epoch `i`'s validation loss is compared against: the
minimum of the initial `1.0` and all prior epochs' validation losses. -/
def best_before (val_losses : List ℚ) (i : ℕ) : ℚ :=
  (val_losses.take i).foldl min 1

theorem is_best_flags_getD (ls : List ℚ) (b : ℚ) (i : ℕ) (h : i < ls.length) :
    (is_best_flags b ls).getD i false
      = decide (ls.getD i 0 < (ls.take i).foldl min b) := by
  induction ls generalizing b i with
  | nil => simp at h
  | cons l ls ih =>
      cases i with
      | zero => simp [is_best_flags]
      | succ i =>
          have hi : i < ls.length := Nat.succ_lt_succ_iff.mp (by simpa using h)
          rw [show is_best_flags b (l :: ls)
                = decide (l < b) :: is_best_flags (min l b) ls from rfl]
          rw [List.getD_cons_succ, ih (min l b) i hi]
          rw [List.getD_cons_succ, List.take_succ_cons, List.foldl_cons, min_comm l b]

/-- On the success path with `is_best = true`, `save_checkpoint` copies the
freshly renamed checkpoint onto the fixed best-model path. -/
theorem save_checkpoint_best_copy (fs : FS) (state_dict filename : String) :
    fsRead (save_checkpoint fs state_dict true filename SaveOutcome.ok).1 "model_best.pth"
      = some state_dict := by
  simp only [save_checkpoint]
  set tempfile := filename ++ ".temp" with htemp
  set fs1 := if fsIsFile fs tempfile then fsRemove fs tempfile else fs with hfs1
  have hexists : fsIsFile (fsWrite fs1 tempfile state_dict) tempfile = true := by
    simp [fsIsFile, fsRead_write_self]
  rw [if_pos hexists]
  have hren : fsRead (fsRename (fsWrite fs1 tempfile state_dict) tempfile filename) filename
      = some state_dict := by
    simp [fsRename, fsRead_write_self]
  simp only [if_pos rfl, hren]
  exact fsRead_write_self _ _ _

/-- C5 (amended): a best-model copy is created in epoch `i` iff that
epoch's validation loss is strictly below the minimum of the initial
`best_loss = 1.0` and all prior epochs' validation losses; in particular
the first epoch triggers a copy iff its loss is below 1.0 (not always).
When the flag is set, `save_checkpoint` does copy the fresh checkpoint to
`model_best.pth`. -/
theorem C5_best_copy_iff (val_losses : List ℚ) (i : ℕ) (h : i < val_losses.length) :
    ((train_eval_is_best val_losses).getD i false
      = decide (val_losses.getD i 0 < best_before val_losses i)) ∧
    (∀ (fs : FS) (state_dict filename : String),
      fsRead (save_checkpoint fs state_dict true filename SaveOutcome.ok).1 "model_best.pth"
        = some state_dict) :=
  ⟨is_best_flags_getD val_losses 1 i h, fun fs s f => save_checkpoint_best_copy fs s f⟩

/-- Witness for C5's amended statement: with validation losses
1/2, 2, 1/4 the third epoch's flag equals the comparison against
`min(1, 1/2, 2) = 1/2`. -/
theorem C5_best_copy_iff_witness :
    (2 < ([1/2, 2, 1/4] : List ℚ).length) ∧
    ((train_eval_is_best [1/2, 2, 1/4]).getD 2 false
      = decide ((([1/2, 2, 1/4] : List ℚ).getD 2 0) < best_before [1/2, 2, 1/4] 2)) :=
  ⟨by norm_num, (C5_best_copy_iff [1/2, 2, 1/4] 2 (by norm_num)).1⟩

/-- Counterexample to C5 as stated: a first epoch with validation loss 2 is
trivially the best loss observed over all (zero) prior epochs, yet
`train_eval_fn` — whose `best_loss` starts at 1.0, not infinity — does not
flag it as best, so no best copy is created. -/
theorem C5_counterexample :
    train_eval_is_best [2] = [false] ∧ train_eval_is_best [2] ≠ [true] := by
  have h : train_eval_is_best [2] = [false] := by
    have h2 : ¬((2 : ℚ) < 1) := by norm_num
    simp [train_eval_is_best, is_best_flags, h2]
  refine ⟨h, by rw [h]; simp⟩

/-! ## Batch collation (C6) -/

/-- Right-pad `l` with `z` to length `n` (identity on the part beyond `n`;
the collators only use it with `n` at least the length of `l`). -/
def pad_to (n : ℕ) (z : α) (l : List α) : List α :=
  l ++ List.replicate (n - l.length) z

/-- The maximum sequence length over a batch (0 for an empty batch). -/
def max_len (ls : List (List α)) : ℕ :=
  ls.foldl (fun m l => max m l.length) 0

/-- `torch.nn.utils.rnn.pad_sequence(..., batch_first=True)`: every
sequence padded with zeros to the batch maximum, order kept. -/
def pad_sequence (z : α) (ls : List (List α)) : List (List α) :=
  ls.map (pad_to (max_len ls) z)

/-- `model_length_function` (src/main.py lines 23-24): the length of the
time axis of a (time-major) feature sequence. -/
def model_length_function (l : List α) : ℕ := l.length

/-- `collate_fn` (src/main.py lines 114-128).  A batch element is a
(feature frames, label ids) pair, the feature sequence already time-major
(after the source's squeeze/transpose); true lengths are taken before
padding; both axes are padded independently with zeros to their own batch
maxima; order is kept.  Returns (inputs, input_lengths, labels,
label_lengths). -/
def collate_fn [Zero α] [Zero β] (batch : List (List α × List β)) :
    List (List α) × List ℕ × List (List β) × List ℕ :=
  let inputs := batch.map Prod.fst
  let input_lengths := inputs.map model_length_function
  let inputs_padded := pad_sequence 0 inputs
  let labels := batch.map Prod.snd
  let label_lengths := labels.map List.length
  let labels_padded := pad_sequence 0 labels
  (inputs_padded, input_lengths, labels_padded, label_lengths)

/-- `data_processing` (src/tpu_train.py lines 70-89): same padding and
ordering, but the recorded input length is `spec.shape[0] // 2` — half the
feature-time length — and the tuple order is (spectrograms, labels,
input_lengths, label_lengths). -/
def data_processing [Zero α] [Zero β] (data : List (List α × List β)) :
    List (List α) × List (List β) × List ℕ × List ℕ :=
  let spectrograms := data.map Prod.fst
  let labels := data.map Prod.snd
  let input_lengths := spectrograms.map (fun s => s.length / 2)
  let label_lengths := labels.map List.length
  (pad_sequence 0 spectrograms, pad_sequence 0 labels, input_lengths, label_lengths)

theorem foldl_max_le_init (ls : List (List α)) (b : ℕ) :
    b ≤ ls.foldl (fun m l => max m l.length) b := by
  induction ls generalizing b with
  | nil => simp
  | cons x xs ih => exact le_trans (le_max_left b x.length) (ih (max b x.length))

theorem length_le_foldl_max (l : List α) :
    ∀ ls : List (List α), l ∈ ls →
      ∀ b : ℕ, l.length ≤ ls.foldl (fun m t => max m t.length) b := by
  intro ls
  induction ls with
  | nil =>
      intro h
      cases h
  | cons x xs ih =>
      intro h b
      rw [List.foldl_cons]
      rcases List.mem_cons.mp h with rfl | hx
      · exact le_trans (le_max_right b l.length) (foldl_max_le_init xs _)
      · exact ih hx (max b x.length)

theorem le_max_len (ls : List (List α)) (l : List α) (h : l ∈ ls) :
    l.length ≤ max_len ls := by
  rw [max_len]
  exact length_le_foldl_max l ls h 0

theorem length_pad_to (n : ℕ) (z : α) (l : List α) (h : l.length ≤ n) :
    (pad_to n z l).length = n := by
  simp only [pad_to, List.length_append, List.length_replicate]
  omega

/-- The collation contract of C6 at one batch, as amended: `collate_fn`
captures each example's true feature-time and label lengths before padding;
`data_processing` captures half the feature-time length (the model's output
rate) and the true label length; both pad each axis independently with
zeros to that axis's batch maximum, keep the input order, and every
reported length is at most the padded length of its axis. -/
def CollateContract {α β : Type} [Zero α] [Zero β]
    (batch : List (List α × List β)) : Prop :=
  (collate_fn batch).2.1 = batch.map (fun b => b.1.length) ∧
  (collate_fn batch).2.2.2 = batch.map (fun b => b.2.length) ∧
  (collate_fn batch).1
    = batch.map (fun b => pad_to (max_len (batch.map Prod.fst)) 0 b.1) ∧
  (collate_fn batch).2.2.1
    = batch.map (fun b => pad_to (max_len (batch.map Prod.snd)) 0 b.2) ∧
  (∀ l, l ∈ (collate_fn batch).1 → l.length = max_len (batch.map Prod.fst)) ∧
  (∀ l, l ∈ (collate_fn batch).2.2.1 → l.length = max_len (batch.map Prod.snd)) ∧
  (∀ b, b ∈ batch → b.1.length ≤ max_len (batch.map Prod.fst)
      ∧ b.2.length ≤ max_len (batch.map Prod.snd)) ∧
  (data_processing batch).2.2.1 = batch.map (fun b => b.1.length / 2) ∧
  (data_processing batch).2.2.2 = batch.map (fun b => b.2.length) ∧
  (∀ b, b ∈ batch → b.1.length / 2 ≤ max_len (batch.map Prod.fst))

/-- C6 (amended): the collation contract holds for every non-empty batch. -/
theorem C6_collate_padding {α β : Type} [Zero α] [Zero β]
    (batch : List (List α × List β)) (h : batch ≠ []) :
    CollateContract batch := by
  refine ⟨?_, ?_, ?_, ?_, ?_, ?_, ?_, ?_, ?_, ?_⟩
  · simp [collate_fn, model_length_function]
  · simp [collate_fn]
  · simp [collate_fn, pad_sequence, List.map_map]
  · simp [collate_fn, pad_sequence, List.map_map]
  · intro l hl
    simp only [collate_fn, pad_sequence, List.map_map, List.mem_map] at hl
    obtain ⟨b, hb, rfl⟩ := hl
    exact length_pad_to _ _ _ (le_max_len _ _ (List.mem_map_of_mem Prod.fst hb))
  · intro l hl
    simp only [collate_fn, pad_sequence, List.map_map, List.mem_map] at hl
    obtain ⟨b, hb, rfl⟩ := hl
    exact length_pad_to _ _ _ (le_max_len _ _ (List.mem_map_of_mem Prod.snd hb))
  · intro b hb
    exact ⟨le_max_len _ _ (List.mem_map_of_mem Prod.fst hb),
      le_max_len _ _ (List.mem_map_of_mem Prod.snd hb)⟩
  · simp [data_processing, List.map_map]
  · simp [data_processing, List.map_map]
  · intro b hb
    exact le_trans (Nat.div_le_self _ 2) (le_max_len _ _ (List.mem_map_of_mem Prod.fst hb))

/-- Witness for C6's amended statement at a concrete two-example batch. -/
theorem C6_collate_padding_witness :
    ([([1, 2], [3]), ([4], [5, 6, 7])] : List (List ℕ × List ℕ)) ≠ [] ∧
    CollateContract ([([1, 2], [3]), ([4], [5, 6, 7])] : List (List ℕ × List ℕ)) :=
  ⟨by decide, C6_collate_padding _ (by decide)⟩

/-- Counterexample to C6 as stated: on a single-example batch whose feature
sequence has 5 frames, `data_processing` (src/tpu_train.py) records input
length 2 = 5 // 2, not the true feature-time length 5. -/
theorem C6_counterexample :
    (data_processing ([([0, 0, 0, 0, 0], [1])] : List (List ℕ × List ℕ))).2.2.1 = [2] ∧
    ([(0 : ℕ), 0, 0, 0, 0].length = 5) ∧
    (data_processing ([([0, 0, 0, 0, 0], [1])] : List (List ℕ × List ℕ))).2.2.1 ≠ [5] := by
  refine ⟨by decide, by decide, by decide⟩

end SttModels
